import Mathlib

/-!
# Verification of `ip_validator.py` (IPv4-Address-Validator)

Shallow embedding of the single source file `src/ip_validator.py`.
The Python function `is_valid_ipv4`:
  * raises `TypeError` when the input is not a string;
  * strips leading/trailing whitespace;
  * splits on the literal character `.`;
  * demands exactly 4 octets, each non-empty, without a leading zero
    (length greater than 1 and first character `0`), and parseable by
    the built-in `int()` to a value in `[0, 255]`.

Strings are modelled as `List Char`.  The `strip`, `split` and `int()`
string operations are modelled below; for the whitespace set and the
digit set we model the ASCII fragment (the language additionally accepts
some Unicode whitespace and Unicode decimal digits, which no input in
this development involves).
-/

namespace IPValidator

/-- The ASCII whitespace characters recognized by `strip()` on strings
and by `int()` on strings. -/
def isPySpace (c : Char) : Bool :=
  c = ' ' || c = '\t' || c = '\n' || c = '\r' || c = '\x0b' || c = '\x0c'

/-- The `strip()` string method: remove leading and trailing whitespace
(`ip_address = ip_address.strip()` in the source). -/
def pyStrip (s : List Char) : List Char :=
  List.rdropWhile isPySpace (List.dropWhile isPySpace s)

/-- The `split(sep)` string method for a one-character separator
(`octets = ip_address.split(.)` in the source): every occurrence of
`sep` separates two (possibly empty) fields, and the empty string splits
into a single empty field. -/
def pySplit (sep : Char) : List Char → List (List Char)
  | [] => [[]]
  | c :: rest =>
    if c = sep then [] :: pySplit sep rest
    else
      match pySplit sep rest with
      | [] => [[c]]
      | g :: gs => (c :: g) :: gs

/-- Numeric value of an ASCII decimal digit. -/
def digitVal (c : Char) : Nat := c.toNat - 48

/-- Auxiliary state of `int()` digit parsing: after at least one digit
has been read (accumulated value `acc`), the remaining characters must
follow the grammar `(us? digit)*` where `us` is a single underscore
allowed only between two digits. -/
def parseDigitsAux : Nat → List Char → Option Nat
  | acc, [] => some acc
  | acc, [c] => if c.isDigit then some (acc * 10 + digitVal c) else none
  | acc, c :: d :: rest =>
    if c = '_' then
      if d.isDigit then parseDigitsAux (acc * 10 + digitVal d) rest else none
    else if c.isDigit then parseDigitsAux (acc * 10 + digitVal c) (d :: rest)
    else none

/-- The `int()` digit-sequence grammar `digit (us? digit)*` (an
underscore may appear only between two digits); `none` on any other
input, in particular on the empty string. -/
def parseUnsigned : List Char → Option Nat
  | [] => none
  | c :: rest => if c.isDigit then parseDigitsAux (digitVal c) rest else none

/-- The built-in `int()` applied to a string (`num = int(octet)` in the
source): surrounding whitespace is ignored, then an optional sign `+`/`-`
followed directly by digits with optional single underscores between
digits; `none` models the raised `ValueError`. -/
def pyIntStr (s : List Char) : Option Int :=
  match pyStrip s with
  | '+' :: rest => (parseUnsigned rest).map (fun n => (n : Int))
  | '-' :: rest => (parseUnsigned rest).map (fun n => -(n : Int))
  | rest => (parseUnsigned rest).map (fun n => (n : Int))

/-- The per-octet checks of the loop body in `is_valid_ipv4`: reject the
empty octet, reject a leading zero (octet length greater than 1 with
first character `0`), then require `int(octet)` to succeed with a value
in `[0, 255]` (the `ValueError` is caught and folded into `False`). -/
def validOctet (octet : List Char) : Bool :=
  if octet.isEmpty then false
  else if 1 < octet.length ∧ octet.head? = some '0' then false
  else
    match pyIntStr octet with
    | none => false
    | some num => if 0 ≤ num ∧ num ≤ 255 then true else false

/-- The string-level body of `is_valid_ipv4`: strip, split on `.`,
require exactly four octets, and check every octet.  (The source loop
returns `False` at the first failing octet; since every failure yields
`False`, this equals the conjunction over all octets.) -/
def is_valid_ipv4_str (s : List Char) : Bool :=
  let octets := pySplit '.' (pyStrip s)
  if octets.length ≠ 4 then false
  else octets.all validOctet

/-- Runtime values a caller can pass: a string or one of the non-string
types named by the spec (the absence-of-value sentinel, integers,
booleans, lists, dictionaries). -/
inductive PyValue where
  | str (s : List Char)
  | int (n : Int)
  | bool (b : Bool)
  | none
  | list (xs : List PyValue)
  | dict (entries : List (PyValue × PyValue))

/-- The distinct failure raised by `is_valid_ipv4` for non-string input
(the `raise TypeError` statement in the source). -/
inductive PyError where
  | typeError

/-- The `isinstance(ip_address, str)` test of the source. -/
def PyValue.isStr : PyValue → Bool
  | .str _ => true
  | _ => false

/-- The full `is_valid_ipv4` entry point: a `TypeError` for any
non-string value, otherwise the boolean verdict of the string body. -/
def is_valid_ipv4 : PyValue → Except PyError Bool
  | .str s => .ok (is_valid_ipv4_str s)
  | _ => .error .typeError

/-- Decimal value of a digit string, as the spec reads a segment
interpreted as a base-10 unsigned integer. -/
def decimalValue (s : List Char) : Nat :=
  s.foldl (fun a c => a * 10 + digitVal c) 0

/-- Modelled from the spec (section 3, invariants 2 to 5), for comparison
with the code: a segment is valid when it is non-empty, consists only of
decimal digits `0`-`9`, has no leading zero unless it is exactly `0`, and
its base-10 value is at most 255. -/
def specValidOctet (seg : List Char) : Bool :=
  if seg.isEmpty then false
  else if ¬ (seg.all Char.isDigit) then false
  else if 1 < seg.length ∧ seg.head? = some '0' then false
  else if decimalValue seg ≤ 255 then true else false

/-- Modelled from the spec (section 3, invariant 1 plus the octet
invariants): the trimmed string must split on `.` into exactly 4
segments, each satisfying `specValidOctet`. -/
def specValid (s : List Char) : Bool :=
  let segs := pySplit '.' (pyStrip s)
  if segs.length ≠ 4 then false
  else segs.all specValidOctet

/-- Characters of a string literal. -/
def strOf (s : String) : List Char := s.data

/-- A whitespace character is never a decimal digit. -/
lemma isPySpace_eq_false_of_isDigit {c : Char} (h : c.isDigit = true) :
    isPySpace c = false := by
  by_contra hs
  rw [Bool.not_eq_false] at hs
  simp only [isPySpace, Bool.or_eq_true, decide_eq_true_eq] at hs
  rcases hs with ((((h1 | h1) | h1) | h1) | h1) | h1 <;> subst h1 <;>
    simp [Char.isDigit] at h

/-- `dropWhile` leaves a list alone when no element satisfies the
predicate. -/
lemma dropWhile_eq_self_of_all {p : Char → Bool} {l : List Char}
    (h : ∀ c ∈ l, p c = false) : List.dropWhile p l = l := by
  cases l with
  | nil => rfl
  | cons a l => simp [List.dropWhile_cons, h a (by simp)]

/-- Stripping a string of digits changes nothing. -/
lemma pyStrip_eq_self_of_digits {seg : List Char}
    (h : ∀ c ∈ seg, c.isDigit = true) : pyStrip seg = seg := by
  have hns : ∀ c ∈ seg, isPySpace c = false :=
    fun c hc => isPySpace_eq_false_of_isDigit (h c hc)
  unfold pyStrip
  rw [dropWhile_eq_self_of_all hns]
  unfold List.rdropWhile
  rw [dropWhile_eq_self_of_all (by simpa using hns), List.reverse_reverse]

/-- On an all-digit tail the underscore branch of `parseDigitsAux` is
never taken, and the parse is the decimal fold. -/
lemma parseDigitsAux_digits (l : List Char) :
    ∀ acc : Nat, (∀ c ∈ l, c.isDigit = true) →
      parseDigitsAux acc l
        = some (l.foldl (fun a c => a * 10 + digitVal c) acc) := by
  induction l with
  | nil => intro acc _; rfl
  | cons c rest ih =>
    intro acc h
    have hc : c.isDigit = true := h c (by simp)
    have hcu : c ≠ '_' := by
      intro e; subst e; simp [Char.isDigit] at hc
    cases rest with
    | nil => simp [parseDigitsAux, hc]
    | cons d rest2 =>
      rw [parseDigitsAux, if_neg hcu, if_pos hc, List.foldl_cons]
      exact ih _ (fun x hx => h x (by simp [hx]))

/-- On a non-empty all-digit string, `int()` returns exactly the decimal
value (no sign, no underscore, no whitespace is involved). -/
lemma pyIntStr_digits {seg : List Char} (hne : seg ≠ [])
    (hd : ∀ c ∈ seg, c.isDigit = true) :
    pyIntStr seg = some (decimalValue seg) := by
  unfold pyIntStr
  rw [pyStrip_eq_self_of_digits hd]
  cases seg with
  | nil => exact absurd rfl hne
  | cons c rest =>
    have hc : c.isDigit = true := hd c (by simp)
    have hplus : c ≠ '+' := by intro e; subst e; simp [Char.isDigit] at hc
    have hminus : c ≠ '-' := by intro e; subst e; simp [Char.isDigit] at hc
    have hmatch :
        (match c :: rest with
          | '+' :: rest => (parseUnsigned rest).map (fun n => (n : Int))
          | '-' :: rest => (parseUnsigned rest).map (fun n => -(n : Int))
          | rest => (parseUnsigned rest).map (fun n => (n : Int)))
        = (parseUnsigned (c :: rest)).map (fun n => (n : Int)) := by
      split
      · next heq => cases heq; exact absurd rfl hplus
      · next heq => cases heq; exact absurd rfl hminus
      · rfl
    have hpu : parseUnsigned (c :: rest) = some (decimalValue (c :: rest)) := by
      rw [show parseUnsigned (c :: rest)
          = if c.isDigit = true then parseDigitsAux (digitVal c) rest else none
          from rfl,
        if_pos hc,
        parseDigitsAux_digits rest (digitVal c) (fun x hx => hd x (by simp [hx]))]
      simp [decimalValue]
    rw [hmatch, hpu]
    rfl

/-- Full characterization of the per-octet loop body. -/
lemma validOctet_true_iff (seg : List Char) :
    validOctet seg = true ↔
      seg ≠ [] ∧ ¬(1 < seg.length ∧ seg.head? = some '0') ∧
        ∃ n : Int, pyIntStr seg = some n ∧ 0 ≤ n ∧ n ≤ 255 := by
  unfold validOctet
  split
  · next he => simp_all [List.isEmpty_iff]
  · next he =>
    split
    · next hlz => simp_all [List.isEmpty_iff]
    · next hlz =>
      rw [List.isEmpty_iff] at he
      constructor
      · intro h
        refine ⟨he, hlz, ?_⟩
        revert h
        split
        · intro h; exact absurd h (by simp)
        · next n heq =>
          intro h
          refine ⟨n, heq, ?_⟩
          by_cases hr : 0 ≤ n ∧ n ≤ 255
          · exact hr
          · rw [if_neg hr] at h; exact absurd h (by simp)
      · rintro ⟨-, -, n, heq, h0, h255⟩
        rw [heq]
        simp [h0, h255]

/-- A prefix of a list that `dropWhile` leaves alone is itself left
alone. -/
lemma dropWhile_prefix_self {p : Char → Bool} {l1 l2 : List Char}
    (h : l1 <+: l2) (h2 : List.dropWhile p l2 = l2) :
    List.dropWhile p l1 = l1 := by
  rw [List.dropWhile_eq_self_iff] at h2 ⊢
  intro hl
  obtain ⟨t, rfl⟩ := h
  have hl2 : 0 < (l1 ++ t).length := by simp; omega
  have := h2 hl2
  simpa [List.get_eq_getElem, List.getElem_append_left hl] using this

/-- Stripping is idempotent. -/
lemma pyStrip_idem (s : List Char) : pyStrip (pyStrip s) = pyStrip s := by
  unfold pyStrip
  have h1 : List.dropWhile isPySpace (List.dropWhile isPySpace s)
      = List.dropWhile isPySpace s := List.dropWhile_idempotent _ _
  have h2 : List.dropWhile isPySpace
        (List.rdropWhile isPySpace (List.dropWhile isPySpace s))
      = List.rdropWhile isPySpace (List.dropWhile isPySpace s) :=
    dropWhile_prefix_self ( List.rdropWhile_prefix _ _) h1
  rw [h2, List.rdropWhile_idempotent]

/-- A wrong segment count short-circuits the validator to `false`. -/
lemma is_valid_false_of_count {s : List Char}
    (h : (pySplit '.' (pyStrip s)).length ≠ 4) : is_valid_ipv4_str s = false := by
  simp only [is_valid_ipv4_str]
  rw [if_pos h]

/-- The validator accepts exactly when the octet count is 4 and every
octet passes the loop body. -/
lemma is_valid_iff (s : List Char) :
    is_valid_ipv4_str s = true ↔
      (pySplit '.' (pyStrip s)).length = 4 ∧
        ∀ seg ∈ pySplit '.' (pyStrip s), validOctet seg = true := by
  simp only [is_valid_ipv4_str]
  by_cases h : (pySplit '.' (pyStrip s)).length = 4
  · simp [h, List.all_eq_true]
  · simp [h]

/-- A leading zero makes the loop body reject the octet. -/
lemma validOctet_false_of_leading_zero {seg : List Char}
    (h1 : 1 < seg.length) (h2 : seg.head? = some '0') : validOctet seg = false := by
  have h : ¬ (validOctet seg = true) := by
    rw [validOctet_true_iff]
    rintro ⟨-, hlz, -⟩
    exact hlz ⟨h1, h2⟩
  simpa using h

/-- Every non-string constructor reaches the `raise TypeError` branch. -/
lemma nonstring_raises {v : PyValue} (h : v.isStr = false) :
    is_valid_ipv4 v = .error .typeError := by
  cases v <;> first | rfl | simp [PyValue.isStr] at h

/-- C1: the claimed equivalence between the code and the digit-only
grammar of spec section 3 fails: the source delegates octet parsing to
`int()`, which tolerates surrounding whitespace inside a segment, so the
input `1.2.3. 4` (listed as invalid in the demo table of the source
itself) is accepted by the code while the grammar of the spec rejects
it. -/
theorem c1_code_accepts_nondigit_grammar :
    is_valid_ipv4_str (strOf "1.2.3. 4") = true ∧
      specValid (strOf "1.2.3. 4") = false := ⟨by decide, by decide⟩

/-- C2: the claim that any non-digit character in a segment forces a
`false` verdict fails: `int()` accepts an optional sign, so the code
accepts `+1.2.3.4` although `+` is not a decimal digit. -/
theorem c2_sign_character_accepted :
    is_valid_ipv4_str (strOf "+1.2.3.4") = true ∧
      Char.isDigit '+' = false := ⟨by decide, by decide⟩

/-- C3: for a trimmed string splitting into exactly 4 non-empty all-digit
segments without leading zeros, the verdict is `true` exactly when every
segment's decimal value is at most 255. -/
theorem c3_range_law (s : List Char)
    (h4 : (pySplit '.' (pyStrip s)).length = 4)
    (hdig : ∀ seg ∈ pySplit '.' (pyStrip s), seg ≠ [] ∧ seg.all Char.isDigit = true)
    (hlz : ∀ seg ∈ pySplit '.' (pyStrip s), ¬(1 < seg.length ∧ seg.head? = some '0')) :
    is_valid_ipv4_str s = true ↔
      ∀ seg ∈ pySplit '.' (pyStrip s), decimalValue seg ≤ 255 := by
  rw [is_valid_iff]
  constructor
  · rintro ⟨-, hall⟩ seg hs
    obtain ⟨hne, hd⟩ := hdig seg hs
    obtain ⟨-, -, n, heq, h0, h255⟩ := (validOctet_true_iff seg).mp (hall seg hs)
    rw [pyIntStr_digits hne (by simpa [List.all_eq_true] using hd)] at heq
    have hn : (decimalValue seg : Int) = n := by injection heq
    have hle : (decimalValue seg : Int) ≤ 255 := hn ▸ h255
    exact_mod_cast hle
  · intro hb
    refine ⟨h4, fun seg hs => ?_⟩
    obtain ⟨hne, hd⟩ := hdig seg hs
    rw [validOctet_true_iff]
    refine ⟨hne, hlz seg hs, (decimalValue seg : Int),
      pyIntStr_digits hne (by simpa [List.all_eq_true] using hd),
      Int.natCast_nonneg _, ?_⟩
    exact_mod_cast hb seg hs

/-- C3 witness: the range law applied at the upper boundary address. -/
theorem c3_range_law_witness :
    is_valid_ipv4_str (strOf "255.255.255.255") = true :=
  (c3_range_law (strOf "255.255.255.255") (by decide) (by decide)
    (by decide)).mpr (by decide)

/-- C4: every non-string input raises the distinct `TypeError` and never
produces a boolean verdict. -/
theorem c4_type_error_on_nonstring (v : PyValue) (h : v.isStr = false) :
    is_valid_ipv4 v = Except.error PyError.typeError :=
  nonstring_raises h

/-- C4 witness: the integer input from the demo table of the source. -/
theorem c4_type_error_on_nonstring_witness :
    (PyValue.int 123456789).isStr = false ∧
      is_valid_ipv4 (PyValue.int 123456789) = Except.error PyError.typeError :=
  ⟨rfl, c4_type_error_on_nonstring (PyValue.int 123456789) rfl⟩

/-- C5: on every string input the function returns an ordinary boolean
verdict, never an error (totality over the string domain; termination is
by construction of the embedding, whose recursions are structural). -/
theorem c5_total_on_strings (s : List Char) :
    ∃ b : Bool, is_valid_ipv4 (PyValue.str s) = Except.ok b :=
  ⟨is_valid_ipv4_str s, rfl⟩

/-- C6: a segment count other than 4 after trim and split forces the
`false` verdict. -/
theorem c6_segment_count_law (s : List Char)
    (h : (pySplit '.' (pyStrip s)).length ≠ 4) :
    is_valid_ipv4_str s = false := is_valid_false_of_count h

/-- C6 witness: the empty string splits into one (empty) segment and is
rejected. -/
theorem c6_segment_count_law_witness :
    (pySplit '.' (pyStrip (strOf ""))).length ≠ 4 ∧
      is_valid_ipv4_str (strOf "") = false :=
  ⟨by decide, c6_segment_count_law (strOf "") (by decide)⟩

/-- C7: any segment of length greater than 1 that begins with the digit
`0` forces the `false` verdict, whatever its numeric value. -/
theorem c7_leading_zero_law (s seg : List Char)
    (hmem : seg ∈ pySplit '.' (pyStrip s))
    (h1 : 1 < seg.length) (h2 : seg.head? = some '0') :
    is_valid_ipv4_str s = false := by
  by_cases h4 : (pySplit '.' (pyStrip s)).length = 4
  · have hoct : validOctet seg = false := validOctet_false_of_leading_zero h1 h2
    have h : ¬ (is_valid_ipv4_str s = true) := by
      rw [is_valid_iff]
      rintro ⟨-, hall⟩
      have := hall seg hmem
      rw [hoct] at this
      exact absurd this (by simp)
    simpa using h
  · exact is_valid_false_of_count h4

/-- C7 witness: the leading-zero example from the spec. -/
theorem c7_leading_zero_law_witness :
    (strOf "01") ∈ pySplit '.' (pyStrip (strOf "192.168.01.1")) ∧
      is_valid_ipv4_str (strOf "192.168.01.1") = false :=
  ⟨by decide, c7_leading_zero_law (strOf "192.168.01.1") (strOf "01")
    (by decide) (by decide) (by decide)⟩

/-- C8: pre-trimming never changes the verdict, because the internal trim
is idempotent; and the surrounded address from the spec is accepted. -/
theorem c8_trim_idempotence :
    (∀ s : List Char, is_valid_ipv4_str s = is_valid_ipv4_str (pyStrip s)) ∧
      is_valid_ipv4_str (strOf "  192.168.1.1  ") = true := by
  constructor
  · intro s
    simp only [is_valid_ipv4_str, pyStrip_idem]
  · decide

/-- C9: the `int()` leniency is real: a sign, an underscore between
digits, or whitespace inside a segment can all survive to a `true`
verdict, although none of these characters is a decimal digit. -/
theorem c9_int_leniency_acceptances :
    is_valid_ipv4_str (strOf "+1.2.3.4") = true ∧
      is_valid_ipv4_str (strOf "-0.0.0.0") = true ∧
      is_valid_ipv4_str (strOf "1_0.2.3.4") = true ∧
      is_valid_ipv4_str (strOf "1.2.3. 4") = true ∧
      Char.isDigit '+' = false ∧ Char.isDigit '-' = false ∧
      Char.isDigit '_' = false ∧ Char.isDigit ' ' = false := by decide

/-- C10: soundness of acceptance: a `true` verdict guarantees exactly 4
segments, each non-empty, without a leading zero, and parsed by `int()`
to a value in `[0, 255]`. -/
theorem c10_acceptance_soundness (s : List Char)
    (h : is_valid_ipv4_str s = true) :
    (pySplit '.' (pyStrip s)).length = 4 ∧
      ∀ seg ∈ pySplit '.' (pyStrip s),
        seg ≠ [] ∧ ¬(1 < seg.length ∧ seg.head? = some '0') ∧
          ∃ n : Int, pyIntStr seg = some n ∧ 0 ≤ n ∧ n ≤ 255 := by
  rw [is_valid_iff] at h
  exact ⟨h.1, fun seg hs => (validOctet_true_iff seg).mp (h.2 seg hs)⟩

/-- C10 witness: soundness applied at a concrete accepted address. -/
theorem c10_acceptance_soundness_witness :
    is_valid_ipv4_str (strOf "192.168.1.1") = true ∧
      (pySplit '.' (pyStrip (strOf "192.168.1.1"))).length = 4 :=
  ⟨by decide, (c10_acceptance_soundness (strOf "192.168.1.1") (by decide)).1⟩

end IPValidator
